import Mathlib

/-!
Verification of the nq-scripts Quran normalization pipeline.

This file gives a shallow embedding, in Lean 4, of the core logic of the
repository: the Tanzil source-integrity validator (SHA-256 over raw bytes),
the static period/sajdah classification tables, the XML-tree corpus parser
(chapters, verses, words, bismillah detection), the translation helpers
(comment stripping, filename metadata), the JSON serializer, and the
row-tuple SQL builders.  Machine arithmetic is modelled with `Nat` and
explicit `% 2^32`; fallible Python code (indexing, `int()` parsing) is
modelled with `Option`.
-/

set_option maxRecDepth 100000

namespace Nq

/-! ## SHA-256 (the digest computed by `hashlib.sha256` in
`validate_tanzil_quran`, embedded from the FIPS 180-4 algorithm so that the
validator can be stated over the exact raw byte sequence). -/

/-- Addition modulo 2^32. -/
def add32 (a b : Nat) : Nat := (a + b) % 4294967296

/-- Right rotation of a 32-bit word (input assumed `< 2^32`). -/
def rotr32 (x n : Nat) : Nat := (x >>> n) ||| ((x <<< (32 - n)) % 4294967296)

/-- Bitwise complement within 32 bits. -/
def not32 (x : Nat) : Nat := x ^^^ 4294967295

def bigSigma0 (x : Nat) : Nat := rotr32 x 2 ^^^ rotr32 x 13 ^^^ rotr32 x 22

def bigSigma1 (x : Nat) : Nat := rotr32 x 6 ^^^ rotr32 x 11 ^^^ rotr32 x 25

def smallSigma0 (x : Nat) : Nat := rotr32 x 7 ^^^ rotr32 x 18 ^^^ (x >>> 3)

def smallSigma1 (x : Nat) : Nat := rotr32 x 17 ^^^ rotr32 x 19 ^^^ (x >>> 10)

def chFn (x y z : Nat) : Nat := (x &&& y) ^^^ (not32 x &&& z)

def majFn (x y z : Nat) : Nat := (x &&& y) ^^^ (x &&& z) ^^^ (y &&& z)

/-- The 64 SHA-256 round constants (FIPS 180-4, written in decimal). -/
def shaK : List Nat :=
  [1116352408, 1899447441, 3049323471, 3921009573, 961987163,
   1508970993, 2453635748, 2870763221, 3624381080, 310598401,
   607225278, 1426881987, 1925078388, 2162078206, 2614888103,
   3248222580, 3835390401, 4022224774, 264347078, 604807628,
   770255983, 1249150122, 1555081692, 1996064986, 2554220882,
   2821834349, 2952996808, 3210313671, 3336571891, 3584528711,
   113926993, 338241895, 666307205, 773529912, 1294757372,
   1396182291, 1695183700, 1986661051, 2177026350, 2456956037,
   2730485921, 2820302411, 3259730800, 3345764771, 3516065817,
   3600352804, 4094571909, 275423344, 430227734, 506948616,
   659060556, 883997877, 958139571, 1322822218, 1537002063,
   1747873779, 1955562222, 2024104815, 2227730452, 2361852424,
   2428436474, 2756734187, 3204031479, 3329325298]

/-- The initial SHA-256 hash state (FIPS 180-4, written in decimal). -/
def shaH0 : List Nat :=
  [1779033703, 3144134277, 1013904242, 2773480762, 1359893119,
   2600822924, 528734635, 1541459225]

/-- The 8 big-endian bytes of the 64-bit message bit length. -/
def lenBytes (n : Nat) : List Nat :=
  (List.range 8).map (fun i => (n >>> (8 * (7 - i))) % 256)

/-- SHA-256 padding: append `0x80`, zero bytes up to 56 mod 64, then the
bit length as 8 big-endian bytes. -/
def padMessage (msg : List Nat) : List Nat :=
  msg ++ [128] ++ List.replicate ((119 - msg.length % 64) % 64) 0
      ++ lenBytes (8 * msg.length)

/-- Group a byte list into big-endian 32-bit words. -/
def bytesToWords : List Nat → List Nat
  | b0 :: b1 :: b2 :: b3 :: rest =>
      (((b0 * 256 + b1) * 256 + b2) * 256 + b3) :: bytesToWords rest
  | _ => []

/-- Extend the 16 message-schedule words to 64 by appending one word at a
time (`n` words remain to be appended). -/
def scheduleAux : Nat → List Nat → List Nat
  | 0, w => w
  | n + 1, w =>
      scheduleAux n (w ++ [add32
        (add32 (smallSigma1 (w.getD (w.length - 2) 0)) (w.getD (w.length - 7) 0))
        (add32 (smallSigma0 (w.getD (w.length - 15) 0)) (w.getD (w.length - 16) 0))])

def schedule (w16 : List Nat) : List Nat := scheduleAux 48 w16

/-- One compression round: the state is the 8-word list `[a,...,h]`. -/
def roundFn (st : List Nat) (k w : Nat) : List Nat :=
  let a := st.getD 0 0
  let b := st.getD 1 0
  let c := st.getD 2 0
  let d := st.getD 3 0
  let e := st.getD 4 0
  let f := st.getD 5 0
  let g := st.getD 6 0
  let h := st.getD 7 0
  let t1 := add32 h (add32 (bigSigma1 e) (add32 (chFn e f g) (add32 k w)))
  let t2 := add32 (bigSigma0 a) (majFn a b c)
  [add32 t1 t2, a, b, c, add32 d t1, e, f, g]

/-- Compress one 64-byte block into the running hash state. -/
def compressBlock (h : List Nat) (block : List Nat) : List Nat :=
  let w := schedule (bytesToWords block)
  let st := (List.zip shaK w).foldl (fun st kw => roundFn st kw.1 kw.2) h
  List.zipWith add32 h st

/-- SHA-256 of a byte sequence, as the 32 digest bytes. -/
def sha256bytes (msg : List Nat) : List Nat :=
  let padded := padMessage msg
  let final := (List.range (padded.length / 64)).foldl
    (fun h i => compressBlock h ((padded.drop (64 * i)).take 64)) shaH0
  final.flatMap (fun w => [(w >>> 24) % 256, (w >>> 16) % 256, (w >>> 8) % 256, w % 256])

/-- A lowercase hexadecimal digit. -/
def hexDigitChar (n : Nat) : Char :=
  if n < 10 then Char.ofNat (48 + n) else Char.ofNat (87 + n)

/-- The lowercase hexadecimal digest string (Python `hexdigest()`). -/
def sha256hex (msg : List Nat) : String :=
  String.mk (sha256bytes msg |>.flatMap fun b => [hexDigitChar (b / 16), hexDigitChar (b % 16)])

/-- The pinned reference digest of the approved Tanzil source release
(`TANZIL_QURAN_SOURCE_HASH` in quran_parser.py). -/
def TANZIL_QURAN_SOURCE_HASH : String :=
  "a22c0d515c37a5667160765c2d1d171fa4b9d7d8778e47161bb0fe894cf61c1d"

/-- Embeds `validate_tanzil_quran`: hash the raw source bytes and compare
the hex digest with the pinned constant. -/
def validate_tanzil_quran (source : List Nat) : Bool :=
  sha256hex source == TANZIL_QURAN_SOURCE_HASH

/-! ## Static classification tables (src/lib/quran.py) -/

/-- Python `dict.get`: first-match association lookup returning `Option`
(the literal tables below have pairwise-distinct keys, so first-match agrees
with Python's last-write-wins semantics). -/
def dictGet {α β : Type} [DecidableEq α] : List (α × β) → α → Option β
  | [], _ => none
  | (k, v) :: tl, a => if a = k then some v else dictGet tl a

/-- The 14-entry static sajdah table, keyed by (surah number, ayah number). -/
def sajdahs : List ((Nat × Nat) × String) :=
  [((32, 15), "vajib"),
   ((41, 37), "vajib"),
   ((53, 62), "vajib"),
   ((96, 19), "vajib"),
   ((7, 206), "mustahab"),
   ((13, 15), "mustahab"),
   ((16, 50), "mustahab"),
   ((17, 109), "mustahab"),
   ((19, 58), "mustahab"),
   ((22, 18), "mustahab"),
   ((25, 60), "mustahab"),
   ((27, 26), "mustahab"),
   ((38, 24), "mustahab"),
   ((84, 21), "mustahab")]

/-- The static revelation-period table, keyed by surah number 1..114. -/
def periods : List (Nat × String) :=
  [(1, "makki"), (2, "madani"), (3, "madani"), (4, "madani"), (5, "madani"),
   (6, "makki"), (7, "makki"), (8, "madani"), (9, "madani"), (10, "makki"),
   (11, "makki"), (12, "makki"), (13, "madani"), (14, "makki"), (15, "makki"),
   (16, "makki"), (17, "makki"), (18, "makki"), (19, "makki"), (20, "makki"),
   (21, "makki"), (22, "madani"), (23, "makki"), (24, "madani"), (25, "makki"),
   (26, "makki"), (27, "makki"), (28, "makki"), (29, "makki"), (30, "makki"),
   (31, "makki"), (32, "makki"), (33, "madani"), (34, "makki"), (35, "makki"),
   (36, "makki"), (37, "makki"), (38, "makki"), (39, "makki"), (40, "makki"),
   (41, "makki"), (42, "makki"), (43, "makki"), (44, "makki"), (45, "makki"),
   (46, "makki"), (47, "madani"), (48, "madani"), (49, "madani"), (50, "makki"),
   (51, "makki"), (52, "makki"), (53, "makki"), (54, "makki"), (55, "madani"),
   (56, "makki"), (57, "madani"), (58, "madani"), (59, "madani"), (60, "madani"),
   (61, "madani"), (62, "madani"), (63, "madani"), (64, "madani"), (65, "madani"),
   (66, "madani"), (67, "makki"), (68, "makki"), (69, "makki"), (70, "makki"),
   (71, "makki"), (72, "makki"), (73, "makki"), (74, "makki"), (75, "makki"),
   (76, "madani"), (77, "makki"), (78, "makki"), (79, "makki"), (80, "makki"),
   (81, "makki"), (82, "makki"), (83, "makki"), (84, "makki"), (85, "makki"),
   (86, "makki"), (87, "makki"), (88, "makki"), (89, "makki"), (90, "makki"),
   (91, "makki"), (92, "makki"), (93, "makki"), (94, "makki"), (95, "makki"),
   (96, "makki"), (97, "makki"), (98, "madani"), (99, "madani"), (100, "makki"),
   (101, "makki"), (102, "makki"), (103, "makki"), (104, "makki"), (105, "makki"),
   (106, "makki"), (107, "makki"), (108, "makki"), (109, "makki"), (110, "madani"),
   (111, "makki"), (112, "makki"), (113, "makki"), (114, "makki")]

/-- The fixed basmala reference string (`BISMILLAH` in src/lib/quran.py),
written with explicit escapes to reproduce the source constant
code-point-for-code-point (the sequence is not NFC-normal: it has
SHADDA U+0651 followed by FATHA U+064E at three positions, and a literal
written in normalized form would be a different string under unnormalized
string equality). -/
def BISMILLAH : String := "\u0628\u0650\u0633\u0652\u0645\u0650 \u0671\u0644\u0644\u0651\u064e\u0647\u0650 \u0671\u0644\u0631\u0651\u064e\u062d\u0652\u0645\u064e\u0640\u0670\u0646\u0650 \u0671\u0644\u0631\u0651\u064e\u062d\u0650\u064a\u0645\u0650"

/-- Sanity: the exact code-point sequence of the basmala constant, as read
from src/lib/quran.py line 141 (identical in quran_parser.py line 23). -/
theorem BISMILLAH_codepoints :
    BISMILLAH.data.map Char.toNat =
      [0x628, 0x650, 0x633, 0x652, 0x645, 0x650, 0x20,
       0x671, 0x644, 0x644, 0x651, 0x64e, 0x647, 0x650, 0x20,
       0x671, 0x644, 0x631, 0x651, 0x64e, 0x62d, 0x652, 0x645, 0x64e,
       0x640, 0x670, 0x646, 0x650, 0x20,
       0x671, 0x644, 0x631, 0x651, 0x64e, 0x62d, 0x650, 0x64a, 0x645, 0x650] := by decide

/-! ## XML input model

Tanzil XML: a root holding `sura` elements (attributes `index`, `name`),
each holding `aya` elements (attributes `index`, `text`, optional
`bismillah`).  An element is modelled by the attributes the code reads;
attribute values are strings as in `xml.etree.ElementTree`. -/

structure XmlAya where
  index : String
  text : String
  bismillah : Option String
deriving DecidableEq, Repr

structure XmlSura where
  index : String
  name : String
  ayas : List XmlAya
deriving DecidableEq, Repr

structure XmlRoot where
  suras : List XmlSura
deriving DecidableEq, Repr

/-! ## The in-memory tree (src/lib/quran.py classes).

Field order in each structure is the Python attribute insertion order
(which `json.dumps(..., default=vars)` serializes). -/

structure Mushaf where
  name : String
  short_name : String
  source : String
deriving DecidableEq, Repr

structure Word where
  text : String
deriving DecidableEq, Repr

structure Ayah where
  number : Nat
  sajdah : Option String
  is_bismillah : Bool
  bismillah_text : Option String
  words : List Word
deriving DecidableEq, Repr

structure Surah where
  name : String
  period : Option String
  number : Nat
  ayahs : List Ayah
deriving DecidableEq, Repr

structure Quran where
  mushaf : Mushaf
  surahs : List Surah
deriving DecidableEq, Repr

/-- Embeds `Ayah.__init__`: the sajdah classification is the table lookup
at (surah number, ayah number), defaulting to `None`; `words` starts empty. -/
def mkAyah (surah_number ayah_number : Nat) (is_bismillah : Bool)
    (bismillah_text : Option String) : Ayah :=
  { number := ayah_number
    sajdah := dictGet sajdahs (surah_number, ayah_number)
    is_bismillah := is_bismillah
    bismillah_text := bismillah_text
    words := [] }

/-- Python `str.split` with a single-character separator: splits at every
occurrence, keeping empty segments (so `"".split(" ") = [""]`). -/
def splitChar (sep : Char) : List Char → List (List Char)
  | [] => [[]]
  | c :: cs =>
    if c = sep then [] :: splitChar sep cs
    else
      match splitChar sep cs with
      | [] => [[c]]
      | w :: ws => (c :: w) :: ws

/-- Embeds `text.replace('۩', '')`: with a single-character pattern and an
empty replacement, Python `str.replace` removes every occurrence of the
prostration glyph U+06E9. -/
def removeSajdahChar (s : String) : String :=
  String.mk (s.data.filter (fun c => c ≠ '۩'))

/-- Python `str.split` with a single-character separator, on strings. -/
def pySplit (sep : Char) (s : String) : List String :=
  (splitChar sep s.data).map String.mk

/-- Python `int(...)` on a decimal digit string, modelled as a fallible
parse (Python raises `ValueError` on non-digit input). -/
def pyIntNat (s : String) : Option Nat :=
  if s.data ≠ [] ∧ s.data.all (·.isDigit) then
    some (s.data.foldl (fun n c => n * 10 + (c.toNat - 48)) 0)
  else none

/-- Embeds `Ayah.words_from_xml`: strip the sajdah glyph from the verse
text, split on the single ASCII space, and store the tokens as `Word`s. -/
def wordsFromXml (ay : Ayah) (a : XmlAya) : Ayah :=
  { ay with words := (pySplit ' ' (removeSajdahChar a.text)).map Word.mk }

/-- `Option`-valued traversal mirroring a Python loop that raises on the
first failing element (the result on success is the element-wise map). -/
def optionMapList {α β : Type} (f : α → Option β) : List α → Option (List β)
  | [] => some []
  | a :: tl =>
    match f a, optionMapList f tl with
    | some b, some bs => some (b :: bs)
    | _, _ => none

/-- Embeds one iteration of `Surah.ayahs_from_xml`: the bismillah flag is
exact string equality of the verse text with `BISMILLAH`; the optional
`bismillah` attribute is passed through; `int(aya_index)` is the fallible
decimal parse. -/
def ayahFromXml (surah_number : Nat) (a : XmlAya) : Option Ayah :=
  match pyIntNat a.index with
  | none => none
  | some idx =>
      some (wordsFromXml (mkAyah surah_number idx (a.text == BISMILLAH) a.bismillah) a)

/-- Embeds `Surah.ayahs_from_xml` over all `aya` children. -/
def ayahsFromXml (surah_number : Nat) (s : XmlSura) : Option (List Ayah) :=
  optionMapList (ayahFromXml surah_number) s.ayas

/-- Embeds `Surah.__init__` + `ayahs_from_xml`: the period is the static
table lookup at the declared chapter number. -/
def surahFromXml (x : XmlSura) : Option Surah :=
  match pyIntNat x.index with
  | none => none
  | some n =>
    match ayahsFromXml n x with
    | none => none
    | some ays =>
        some { name := x.name, period := dictGet periods n, number := n, ayahs := ays }

/-- Embeds `Quran.__init__` + `Quran.surahs_from_xml`. -/
def quranFromXml (mushaf : Mushaf) (root : XmlRoot) : Option Quran :=
  match optionMapList surahFromXml root.suras with
  | none => none
  | some ss => some { mushaf := mushaf, surahs := ss }

/-- Sanity: SHA-256 of the empty message (FIPS 180-4 test vector). -/
theorem sha256bytes_empty :
    sha256bytes [] =
      [0xe3, 0xb0, 0xc4, 0x42, 0x98, 0xfc, 0x1c, 0x14, 0x9a, 0xfb, 0xf4, 0xc8,
       0x99, 0x6f, 0xb9, 0x24, 0x27, 0xae, 0x41, 0xe4, 0x64, 0x9b, 0x93, 0x4c,
       0xa4, 0x95, 0x99, 0x1b, 0x78, 0x52, 0xb8, 0x55] := by decide

/-- Sanity: SHA-256 of the ASCII bytes of "abc" (FIPS 180-4 test vector). -/
theorem sha256hex_abc :
    sha256hex [97, 98, 99] =
      "ba7816bf8f01cfea414140de5dae2223b00361a396177a9cb410ff61f20015ad" := by decide

/-- A key absent from an association list looks up to `none`. -/
theorem dictGet_eq_none_of_not_mem {α β : Type} [DecidableEq α] :
    ∀ (l : List (α × β)) (a : α), a ∉ l.map Prod.fst → dictGet l a = none := by
  intro l
  induction l with
  | nil => intro a _; rfl
  | cons kv tl ih =>
    intro a h
    rw [List.map_cons, List.mem_cons, not_or] at h
    obtain ⟨h1, h2⟩ := h
    show (if a = kv.1 then some kv.2 else dictGet tl a) = none
    rw [if_neg h1]
    exact ih a h2

/-- C1: the source integrity validator hashes exactly the raw corpus bytes
with SHA-256 and returns true iff the lowercase hexadecimal digest equals
the pinned reference digest; any differing digest yields false. -/
theorem validate_tanzil_quran_spec (source : List Nat) :
    (validate_tanzil_quran source = true ↔
      sha256hex source = TANZIL_QURAN_SOURCE_HASH) ∧
    (sha256hex source ≠ TANZIL_QURAN_SOURCE_HASH →
      validate_tanzil_quran source = false) := by
  constructor
  · simp [validate_tanzil_quran]
  · intro h
    simp [validate_tanzil_quran, h]

/-- Witness for C1 at the empty byte sequence, whose digest differs from
the pinned constant. -/
theorem validate_tanzil_quran_spec_witness :
    sha256hex [] ≠ TANZIL_QURAN_SOURCE_HASH ∧ validate_tanzil_quran [] = false :=
  ⟨by decide, (validate_tanzil_quran_spec []).2 (by decide)⟩

/-- C3: the revelation-period table returns a defined value, one of makki
or madani, for every chapter number 1..114. -/
theorem periods_cover_all_chapters (n : Nat) (h1 : 1 ≤ n) (h2 : n ≤ 114) :
    ∃ v, dictGet periods n = some v ∧ (v = "makki" ∨ v = "madani") := by
  have hall : ∀ m ∈ List.range' 1 114,
      dictGet periods m = some "makki" ∨ dictGet periods m = some "madani" := by decide
  have hmem : n ∈ List.range' 1 114 := by
    rw [List.mem_range']
    exact ⟨n - 1, by omega, by omega⟩
  rcases hall n hmem with h | h
  · exact ⟨"makki", h, Or.inl rfl⟩
  · exact ⟨"madani", h, Or.inr rfl⟩

/-- Witness for C3 at chapter 5. -/
theorem periods_cover_all_chapters_witness :
    (1 ≤ 5 ∧ 5 ≤ 114) ∧
      ∃ v, dictGet periods 5 = some v ∧ (v = "makki" ∨ v = "madani") :=
  ⟨⟨by decide, by decide⟩, periods_cover_all_chapters 5 (by decide) (by decide)⟩

/-- C4: for pairs in the 14-entry sajdah table the constructed Ayah is
classified vajib or mustahab; for all other pairs the classification
defaults to none. -/
theorem sajdah_classification (s a : Nat) (ib : Bool) (bt : Option String) :
    ((s, a) ∈ sajdahs.map Prod.fst →
      (mkAyah s a ib bt).sajdah = some "vajib" ∨
        (mkAyah s a ib bt).sajdah = some "mustahab") ∧
    ((s, a) ∉ sajdahs.map Prod.fst → (mkAyah s a ib bt).sajdah = none) := by
  have hval : ∀ p ∈ sajdahs.map Prod.fst,
      dictGet sajdahs p = some "vajib" ∨ dictGet sajdahs p = some "mustahab" := by decide
  constructor
  · intro hmem
    show dictGet sajdahs (s, a) = some "vajib" ∨ dictGet sajdahs (s, a) = some "mustahab"
    exact hval (s, a) hmem
  · intro hmem
    show dictGet sajdahs (s, a) = none
    exact dictGet_eq_none_of_not_mem sajdahs (s, a) hmem

/-- Witness for C4: the pair (32, 15) is in the table and classifies vajib
or mustahab; the pair (1, 1) is absent and classifies none. -/
theorem sajdah_classification_witness :
    ((32, 15) ∈ sajdahs.map Prod.fst ∧
      ((mkAyah 32 15 false none).sajdah = some "vajib" ∨
        (mkAyah 32 15 false none).sajdah = some "mustahab")) ∧
    ((1, 1) ∉ sajdahs.map Prod.fst ∧ (mkAyah 1 1 false none).sajdah = none) :=
  ⟨⟨by decide, (sajdah_classification 32 15 false none).1 (by decide)⟩,
   ⟨by decide, (sajdah_classification 1 1 false none).2 (by decide)⟩⟩

/-! ## Word splitting (claim C6) -/

/-- Joining character lists with a single separator character. -/
def joinWithChar (sep : Char) : List (List Char) → List Char
  | [] => []
  | [xs] => xs
  | xs :: xss => xs ++ sep :: joinWithChar sep xss

theorem splitChar_of_not_mem (sep : Char) :
    ∀ xs : List Char, sep ∉ xs → splitChar sep xs = [xs] := by
  intro xs
  induction xs with
  | nil => intro _; rfl
  | cons c cs ih =>
    intro h
    rw [List.mem_cons, not_or] at h
    obtain ⟨h1, h2⟩ := h
    have hc : c ≠ sep := fun hh => h1 hh.symm
    simp only [splitChar, if_neg hc]
    rw [ih h2]

theorem splitChar_append (sep : Char) :
    ∀ (xs rest : List Char), sep ∉ xs →
      splitChar sep (xs ++ sep :: rest) = xs :: splitChar sep rest := by
  intro xs
  induction xs with
  | nil =>
    intro rest _
    simp [splitChar]
  | cons c cs ih =>
    intro rest h
    rw [List.mem_cons, not_or] at h
    obtain ⟨h1, h2⟩ := h
    have hc : c ≠ sep := fun hh => h1 hh.symm
    have hrec := ih rest h2
    simp only [List.cons_append, splitChar, if_neg hc, List.append_eq]
    rw [hrec]

theorem splitChar_joinWithChar (sep : Char) :
    ∀ xss : List (List Char), xss ≠ [] → (∀ xs ∈ xss, sep ∉ xs) →
      splitChar sep (joinWithChar sep xss) = xss := by
  intro xss
  induction xss with
  | nil => intro h _; exact absurd rfl h
  | cons xs xss ih =>
    intro _ hall
    cases xss with
    | nil => exact splitChar_of_not_mem sep xs (hall xs (List.mem_cons_self xs []))
    | cons ys yss =>
      show splitChar sep (xs ++ sep :: joinWithChar sep (ys :: yss)) = xs :: (ys :: yss)
      rw [splitChar_append sep xs _ (hall xs (List.mem_cons_self _ _))]
      rw [ih (by simp) (fun a ha => hall a (List.mem_cons_of_mem _ ha))]

/-- C6: a verse whose glyph-stripped text is N non-empty single-space
separated tokens parses to exactly N Words, matching the tokens in order. -/
theorem words_match_tokens (ay : Ayah) (x : XmlAya) (tokens : List String)
    (h0 : tokens ≠ [])
    (h1 : ∀ t ∈ tokens, t ≠ "" ∧ ' ' ∉ t.data)
    (h2 : (removeSajdahChar x.text).data = joinWithChar ' ' (tokens.map String.data)) :
    (wordsFromXml ay x).words.length = tokens.length ∧
    ∀ i (hi : i < (wordsFromXml ay x).words.length) (ht : i < tokens.length),
      ((wordsFromXml ay x).words.get ⟨i, hi⟩).text = tokens.get ⟨i, ht⟩ := by
  have hsplit : splitChar ' ' (removeSajdahChar x.text).data = tokens.map String.data := by
    rw [h2]
    refine splitChar_joinWithChar ' ' (tokens.map String.data) (by simpa using h0) ?_
    intro xs hxs
    rcases List.mem_map.mp hxs with ⟨t, ht, rfl⟩
    exact (h1 t ht).2
  have hwords : (wordsFromXml ay x).words = tokens.map Word.mk := by
    show (pySplit ' ' (removeSajdahChar x.text)).map Word.mk = tokens.map Word.mk
    unfold pySplit
    rw [hsplit, List.map_map, List.map_map]
    rfl
  refine ⟨by rw [hwords, List.length_map], ?_⟩
  intro i hi ht
  rw [List.get_eq_getElem]
  simp only [hwords, List.getElem_map]
  rw [List.get_eq_getElem]

/-- Witness for C6 on the two-token verse text "ab cd". -/
theorem words_match_tokens_witness :
    (wordsFromXml (mkAyah 1 1 false none) ⟨"1", "ab cd", none⟩).words.length =
      (["ab", "cd"] : List String).length :=
  (words_match_tokens (mkAyah 1 1 false none) ⟨"1", "ab cd", none⟩ ["ab", "cd"]
    (by decide) (by decide) (by decide)).1

/-! ## Bismillah detection (claim C5) -/

theorem optionMapList_length_get {α β : Type} (f : α → Option β) :
    ∀ (l : List α) (l' : List β), optionMapList f l = some l' →
      l'.length = l.length ∧
      ∀ i (hi : i < l'.length) (hl : i < l.length),
        f (l.get ⟨i, hl⟩) = some (l'.get ⟨i, hi⟩) := by
  intro l
  induction l with
  | nil =>
    intro l' h
    simp only [optionMapList, Option.some.injEq] at h
    subst h
    exact ⟨rfl, fun i hi => absurd hi (by simp)⟩
  | cons a tl ih =>
    intro l' h
    unfold optionMapList at h
    rcases hfa : f a with _ | b <;> rw [hfa] at h
    · simp at h
    · rcases hrest : optionMapList f tl with _ | bs <;> rw [hrest] at h
      · simp at h
      · simp only [Option.some.injEq] at h
        subst h
        obtain ⟨ihlen, ihget⟩ := ih bs hrest
        refine ⟨by simp [ihlen], ?_⟩
        intro i hi hl
        cases i with
        | zero => simpa using hfa
        | succ j =>
          exact ihget j (Nat.lt_of_succ_lt_succ hi) (Nat.lt_of_succ_lt_succ hl)

theorem ayahFromXml_flag {n : Nat} {a : XmlAya} {b : Ayah}
    (h : ayahFromXml n a = some b) :
    b.is_bismillah = (a.text == BISMILLAH) ∧ b.bismillah_text = a.bismillah := by
  unfold ayahFromXml at h
  rcases hp : pyIntNat a.index with _ | idx <;> rw [hp] at h
  · cases h
  · injection h with h
    subst h
    exact ⟨rfl, rfl⟩

def fixtureMushaf : Mushaf := ⟨"hafs", "Hafs an Asem", "tanzil"⟩

def fixtureSura1 : XmlSura := ⟨"1", "الفاتحة", [⟨"1", BISMILLAH, none⟩]⟩

def fixtureSura2 : XmlSura := ⟨"2", "البقرة", [⟨"1", "الم", none⟩]⟩

def bismillahFixture : XmlRoot := ⟨[fixtureSura1, fixtureSura2]⟩

/-- C5: a parsed verse is flagged is_bismillah exactly when its text equals
the fixed basmala string, its declared optional bismillah attribute is
passed through unchanged, and on the two-chapter fixture only chapter 1's
verse is flagged. -/
theorem bismillah_flag_spec (n : Nat) (x : XmlSura) (l : List Ayah)
    (h : ayahsFromXml n x = some l) :
    (l.length = x.ayas.length ∧
      ∀ i (hi : i < l.length) (hx : i < x.ayas.length),
        (l.get ⟨i, hi⟩).is_bismillah = ((x.ayas.get ⟨i, hx⟩).text == BISMILLAH) ∧
        (l.get ⟨i, hi⟩).bismillah_text = (x.ayas.get ⟨i, hx⟩).bismillah) ∧
    (quranFromXml fixtureMushaf bismillahFixture).map
        (fun q => q.surahs.map (fun s => s.ayahs.map (fun ay => ay.is_bismillah)))
      = some [[true], [false]] := by
  constructor
  · obtain ⟨hlen, hget⟩ := optionMapList_length_get (ayahFromXml n) x.ayas l h
    refine ⟨hlen, ?_⟩
    intro i hi hx
    exact ayahFromXml_flag (hget i hi hx)
  · decide

/-- Witness for C5 on the fixture's second chapter. -/
theorem bismillah_flag_spec_witness :
    ayahsFromXml 2 fixtureSura2 = some [⟨1, none, false, none, [⟨"الم"⟩]⟩] ∧
    ([(⟨1, none, false, none, [⟨"الم"⟩]⟩ : Ayah)].length = fixtureSura2.ayas.length) :=
  ⟨by decide,
   (bismillah_flag_spec 2 fixtureSura2 [⟨1, none, false, none, [⟨"الم"⟩]⟩] (by decide)).1.1⟩

/-! ## Filename metadata (claim C7) -/

/-- Python `os.path.split(path)[1]`: the part after the last slash. -/
def baseName (p : String) : String := (pySplit '/' p).getLastD ""

/-- Embeds `translation_metadata` (src/lib/translation.py): split the base
name on '.' and return segments 0 and 1; Python list indexing out of range
raises IndexError, modelled as `none`. -/
def translation_metadata (file_path : String) : Option (String × String) :=
  match (pySplit '.' (baseName file_path)).get? 0,
        (pySplit '.' (baseName file_path)).get? 1 with
  | some l, some a => some (l, a)
  | _, _ => none

/-- C7 counterexample: the four-segment base name "en.mahdi.extra.xml" is
not rejected; the code returns the truncated metadata (first two
segments) instead of raising a malformed-input error. -/
theorem translation_metadata_four_segments_no_error :
    translation_metadata "en.mahdi.extra.xml" = some ("en", "mahdi") ∧
    translation_metadata "en.mahdi.extra.xml" ≠ none := ⟨by decide, by decide⟩

/-- C7 amended: extraction returns the first two dot-separated segments of
the base name whenever at least two exist — three-segment names yield
(language, author), longer names yield truncated values rather than an
error; only a base name with fewer than two segments fails (IndexError). -/
theorem translation_metadata_amended (file_path : String) :
    (2 ≤ (pySplit '.' (baseName file_path)).length →
      translation_metadata file_path =
        some ((pySplit '.' (baseName file_path)).getD 0 "",
              (pySplit '.' (baseName file_path)).getD 1 "")) ∧
    ((pySplit '.' (baseName file_path)).length < 2 →
      translation_metadata file_path = none) := by
  constructor
  · intro hlen
    unfold translation_metadata
    rcases hp : pySplit '.' (baseName file_path) with _ | ⟨a, _ | ⟨b, tl⟩⟩
    · rw [hp] at hlen; simp at hlen
    · rw [hp] at hlen; simp at hlen
    · rfl
  · intro hlen
    unfold translation_metadata
    rcases hp : pySplit '.' (baseName file_path) with _ | ⟨a, _ | ⟨b, tl⟩⟩
    · rfl
    · rfl
    · rw [hp] at hlen
      simp at hlen
      omega

/-- Witness for C7 (amended) on the well-formed name "en.mahdi.xml". -/
theorem translation_metadata_amended_witness :
    2 ≤ (pySplit '.' (baseName "en.mahdi.xml")).length ∧
    translation_metadata "en.mahdi.xml" =
      some ((pySplit '.' (baseName "en.mahdi.xml")).getD 0 "",
            (pySplit '.' (baseName "en.mahdi.xml")).getD 1 "") :=
  ⟨by decide, (translation_metadata_amended "en.mahdi.xml").1 (by decide)⟩

/-! ## Comment stripping (claim C8)

Embeds `re.sub("(<!--.*?-->)", "", text, flags=re.DOTALL)`: scan left to
right; at the leftmost `<!--`, remove through the nearest following `-->`
(non-greedy, newlines allowed in between) and continue after it; an opener
with no closer anywhere later matches nothing, so the remainder is kept. -/

/-- True when the character list starts with the comment opener `<!--`. -/
def startsWithOpen : List Char → Bool
  | a :: b :: c :: d :: _ => a == '<' && b == '!' && c == '-' && d == '-'
  | _ => false

/-- True when the character list starts with the comment closer `-->`. -/
def startsWithClose : List Char → Bool
  | a :: b :: c :: _ => a == '-' && b == '-' && c == '>'
  | _ => false

def containsOpen : List Char → Bool
  | [] => false
  | c :: rest => startsWithOpen (c :: rest) || containsOpen rest

def containsClose : List Char → Bool
  | [] => false
  | c :: rest => startsWithClose (c :: rest) || containsClose rest

/-- Skip to just after the leftmost closer, as the non-greedy match does. -/
def dropToClose : List Char → Option (List Char)
  | [] => none
  | c :: rest =>
    if startsWithClose (c :: rest) then some (rest.drop 2) else dropToClose rest

/-- Fuel-indexed scanning pass of the substitution. -/
def rcAux : Nat → List Char → List Char
  | 0, l => l
  | _ + 1, [] => []
  | fuel + 1, c :: rest =>
    if startsWithOpen (c :: rest) then
      match dropToClose (rest.drop 3) with
      | some r2 => rcAux fuel r2
      | none => c :: rest
    else c :: rcAux fuel rest

/-- Comment removal on character lists. -/
def removeCommentsL (l : List Char) : List Char := rcAux l.length l

/-- Embeds `remove_comments_from_xml`: the UTF-8-decoded text with every
`<!--`..`-->` region removed. -/
def remove_comments_from_xml (s : String) : String :=
  String.mk (removeCommentsL s.data)

theorem dropToClose_length :
    ∀ (l r : List Char), dropToClose l = some r → r.length ≤ l.length := by
  intro l
  induction l with
  | nil => intro r h; cases h
  | cons c rest ih =>
    intro r h
    unfold dropToClose at h
    by_cases hs : startsWithClose (c :: rest) = true
    · rw [if_pos hs] at h
      injection h with h
      subst h
      simp [List.length_drop]
      omega
    · rw [if_neg hs] at h
      exact le_trans (ih r h) (by simp)

theorem rcAux_nil : ∀ f : Nat, rcAux f [] = [] := by
  intro f
  cases f <;> rfl

theorem rcAux_fuel_irrel :
    ∀ (f1 f2 : Nat) (l : List Char), l.length ≤ f1 → l.length ≤ f2 →
      rcAux f1 l = rcAux f2 l := by
  intro f1
  induction f1 with
  | zero =>
    intro f2 l h1 _
    rw [List.length_eq_zero.mp (Nat.le_zero.mp h1)]
    rw [rcAux_nil, rcAux_nil]
  | succ g ih =>
    intro f2 l h1 h2
    cases l with
    | nil => rw [rcAux_nil, rcAux_nil]
    | cons c rest =>
      cases f2 with
      | zero => exact absurd h2 (by simp)
      | succ g2 =>
        show rcAux (g + 1) (c :: rest) = rcAux (g2 + 1) (c :: rest)
        unfold rcAux
        by_cases ho : startsWithOpen (c :: rest) = true
        · rw [if_pos ho, if_pos ho]
          rcases hd : dropToClose (rest.drop 3) with _ | r2
          · rfl
          · have hlen : r2.length ≤ rest.length :=
              le_trans (dropToClose_length _ _ hd) (by simp [List.length_drop])
            have hg : rest.length ≤ g := by simp at h1; omega
            have hg2 : rest.length ≤ g2 := by simp at h2; omega
            exact ih g2 r2 (le_trans hlen hg) (le_trans hlen hg2)
        · rw [if_neg ho, if_neg ho]
          have hg : rest.length ≤ g := by simp at h1; omega
          have hg2 : rest.length ≤ g2 := by simp at h2; omega
          rw [ih g2 rest hg hg2]

theorem removeCommentsL_cons_noopen {c : Char} {rest : List Char}
    (h : startsWithOpen (c :: rest) = false) :
    removeCommentsL (c :: rest) = c :: removeCommentsL rest := by
  show rcAux (rest.length + 1) (c :: rest) = c :: rcAux rest.length rest
  conv_lhs => unfold rcAux
  rw [if_neg (by simp [h])]

theorem removeCommentsL_open {c : Char} {rest r2 : List Char}
    (h : startsWithOpen (c :: rest) = true)
    (hd : dropToClose (rest.drop 3) = some r2) :
    removeCommentsL (c :: rest) = removeCommentsL r2 := by
  show rcAux (rest.length + 1) (c :: rest) = removeCommentsL r2
  unfold rcAux
  rw [if_pos (by simp [h]), hd]
  exact rcAux_fuel_irrel rest.length r2.length r2
    (le_trans (dropToClose_length _ _ hd) (by simp [List.length_drop]))
    (le_refl _)

theorem removeCommentsL_noopen :
    ∀ l : List Char, containsOpen l = false → removeCommentsL l = l := by
  intro l
  induction l with
  | nil => intro _; rfl
  | cons c rest ih =>
    intro h
    unfold containsOpen at h
    rw [Bool.or_eq_false_iff] at h
    rw [removeCommentsL_cons_noopen h.1, ih h.2]

def openChars : List Char := ['<', '!', '-', '-']

def closeChars : List Char := ['-', '-', '>']

theorem startsWithClose_body_extend {c : Char} {body r : List Char}
    (h : startsWithClose (c :: body) = false) :
    startsWithClose (c :: (body ++ closeChars ++ r)) = false := by
  cases body with
  | nil => simp [startsWithClose, closeChars]
  | cons y body' =>
    cases body' with
    | nil => simp [startsWithClose, closeChars]
    | cons z body'' => simpa [startsWithClose] using h

theorem dropToClose_through_body :
    ∀ (body r : List Char), containsClose body = false →
      dropToClose (body ++ closeChars ++ r) = some r := by
  intro body
  induction body with
  | nil =>
    intro r _
    show dropToClose ('-' :: '-' :: '>' :: r) = some r
    unfold dropToClose
    rw [if_pos (by simp [startsWithClose])]
    rfl
  | cons c body' ih =>
    intro r h
    unfold containsClose at h
    rw [Bool.or_eq_false_iff] at h
    show dropToClose (c :: (body' ++ closeChars ++ r)) = some r
    unfold dropToClose
    rw [if_neg (by
      have := @startsWithClose_body_extend c body' r h.1
      simpa [List.append_assoc] using this)]
    exact ih r h.2

theorem startsWithOpen_seg_extend {c : Char} {seg r : List Char}
    (h : startsWithOpen (c :: seg) = false) :
    startsWithOpen (c :: (seg ++ openChars ++ r)) = false := by
  cases seg with
  | nil => simp [startsWithOpen, openChars]
  | cons y seg' =>
    cases seg' with
    | nil => simp [startsWithOpen, openChars]
    | cons z seg'' =>
      cases seg'' with
      | nil => simp [startsWithOpen, openChars]
      | cons w seg''' => simpa [startsWithOpen] using h

theorem removeCommentsL_comment :
    ∀ (seg body r : List Char), containsOpen seg = false → containsClose body = false →
      removeCommentsL (seg ++ openChars ++ body ++ closeChars ++ r) =
        seg ++ removeCommentsL r := by
  intro seg
  induction seg with
  | nil =>
    intro body r _ hbody
    show removeCommentsL ('<' :: '!' :: '-' :: '-' :: (body ++ closeChars ++ r)) = removeCommentsL r
    refine removeCommentsL_open (by simp [startsWithOpen]) ?_
    show dropToClose (body ++ closeChars ++ r) = some r
    exact dropToClose_through_body body r hbody
  | cons x seg' ih =>
    intro body r hseg hbody
    unfold containsOpen at hseg
    rw [Bool.or_eq_false_iff] at hseg
    show removeCommentsL (x :: (seg' ++ openChars ++ body ++ closeChars ++ r)) =
      x :: (seg' ++ removeCommentsL r)
    have hnoop : startsWithOpen (x :: (seg' ++ openChars ++ body ++ closeChars ++ r)) = false := by
      have := @startsWithOpen_seg_extend x seg' (body ++ closeChars ++ r) hseg.1
      simpa [List.append_assoc] using this
    rw [removeCommentsL_cons_noopen hnoop]
    rw [show (seg' ++ openChars ++ body ++ closeChars ++ r) =
      seg' ++ openChars ++ body ++ closeChars ++ r from rfl]
    rw [ih body r hseg.2 hbody]

/-- Text assembled from comment-free segments alternating with comments. -/
def assembleComments : List (List Char × List Char) → List Char → List Char
  | [], tail => tail
  | (seg, body) :: ps, tail =>
      seg ++ openChars ++ body ++ closeChars ++ assembleComments ps tail

/-- The same text with the comments (and their delimiters) removed. -/
def stripSegments : List (List Char × List Char) → List Char → List Char
  | [], tail => tail
  | (seg, _) :: ps, tail => seg ++ stripSegments ps tail

/-- C8: on text made of comment-free segments interleaved with any number
of (possibly adjacent, possibly multi-line) `<!--`..`-->` comments, the
stripper removes exactly the delimited substrings and leaves every other
character unchanged. -/
theorem remove_comments_spec (pieces : List (List Char × List Char)) (tail : List Char)
    (hseg : ∀ p ∈ pieces, containsOpen p.1 = false ∧ containsClose p.2 = false)
    (htail : containsOpen tail = false) :
    remove_comments_from_xml (String.mk (assembleComments pieces tail)) =
      String.mk (stripSegments pieces tail) := by
  show String.mk (removeCommentsL (assembleComments pieces tail)) =
    String.mk (stripSegments pieces tail)
  congr 1
  induction pieces with
  | nil => exact removeCommentsL_noopen tail htail
  | cons p ps ih =>
    obtain ⟨seg, body⟩ := p
    have hp := hseg (seg, body) (List.mem_cons_self _ _)
    show removeCommentsL (seg ++ openChars ++ body ++ closeChars ++ assembleComments ps tail) =
      seg ++ stripSegments ps tail
    rw [removeCommentsL_comment seg body _ hp.1 hp.2]
    rw [ih (fun q hq => hseg q (List.mem_cons_of_mem _ hq))]

/-- Witness for C8: two comments, one multi-line, one adjacent pair, and a
stray closer in the tail. -/
theorem remove_comments_spec_witness :
    remove_comments_from_xml
        (String.mk (assembleComments
          [("a".data, (" x\ny ").data), ("".data, "z".data)] ("b-->c".data))) =
      String.mk (stripSegments
        [("a".data, (" x\ny ").data), ("".data, "z".data)] ("b-->c".data)) :=
  remove_comments_spec _ _ (by decide) (by decide)

/-! ## Row-tuple SQL builders (src/tanzil_quran_parser/quran_parser.py) -/

def INSERTABLE_QURAN_MUSHAF_TABLE : String :=
  "quran_mushafs(creator_user_id, id, short_name, name, source, bismillah_text)"

def INSERTABLE_QURAN_SURAH_TABLE : String :=
  "quran_surahs(creator_user_id, name, period, number, bismillah_status, bismillah_as_first_ayah, mushaf_id)"

def INSERTABLE_QURAN_WORDS_TABLE : String :=
  "quran_words(creator_user_id, ayah_id, word)"

def INSERTABLE_QURAN_AYAHS_TABLE : String :=
  "quran_ayahs(creator_user_id, surah_id, ayah_number, sajdah)"

/-- Embeds `insert_to_table`. -/
def insert_to_table (i_table values_str : String) : String :=
  "INSERT INTO " ++ i_table ++ " VALUES " ++ values_str ++ ";"

/-- Python f-string interpolation of a value that may be `None`. -/
def pyStrOfOption : Option String → String
  | none => "None"
  | some s => s

/-- One row of the quran_ayahs INSERT. -/
def ayahRow (surah_number : Nat) (aya_index : String) (sajdah_status : Option String) : String :=
  match sajdah_status with
  | none => "(1, " ++ toString surah_number ++ ", " ++ aya_index ++ ", NULL)"
  | some s => "(1, " ++ toString surah_number ++ ", " ++ aya_index ++ ", '" ++ s ++ "')"

/-- Embeds the loop of `parse_quran_ayahs_table`: the sajdah status is
looked up BEFORE the chapter counter increments on a verse whose declared
index attribute is the string "1"; the row is emitted after the increment. -/
def ayahsRowsLoop : List XmlAya → Nat → Option (List String)
  | [], _ => some []
  | aya :: rest, surah_number =>
    match pyIntNat aya.index with
    | none => none
    | some n =>
      let sajdah_status := dictGet sajdahs (surah_number, n)
      let surah_number' := if aya.index == "1" then surah_number + 1 else surah_number
      match ayahsRowsLoop rest surah_number' with
      | none => none
      | some rs => some (ayahRow surah_number' aya.index sajdah_status :: rs)

/-- The claim's reference behavior, for comparison: the chapter counter
increments before the sajdah lookup, so every verse is looked up under its
true (chapter, verse) coordinate. -/
def ayahsRowsLoopTrueCoord : List XmlAya → Nat → Option (List String)
  | [], _ => some []
  | aya :: rest, surah_number =>
    match pyIntNat aya.index with
    | none => none
    | some n =>
      let surah_number' := if aya.index == "1" then surah_number + 1 else surah_number
      let sajdah_status := dictGet sajdahs (surah_number', n)
      match ayahsRowsLoopTrueCoord rest surah_number' with
      | none => none
      | some rs => some (ayahRow surah_number' aya.index sajdah_status :: rs)

/-- All `aya` elements in document order (`root.iter('aya')`). -/
def allAyas (root : XmlRoot) : List XmlAya := root.suras.flatMap (fun s => s.ayas)

/-- Embeds `parse_quran_ayahs_table` (counter starts at 0). -/
def parse_quran_ayahs_table (root : XmlRoot) : Option String :=
  (ayahsRowsLoop (allAyas root) 0).map
    (fun rs => insert_to_table INSERTABLE_QURAN_AYAHS_TABLE (String.intercalate ",\n" rs))

theorem pyIntNat_one {s : String} (h : (s == "1") = true) : pyIntNat s = some 1 := by
  rw [show s = "1" from eq_of_beq h]
  decide

/-- C10: the late counter increment is harmless — the emitted rows equal
those of the true-coordinate lookup (because the sajdah table has no entry
with verse number 1), and `parse_quran_ayahs_table` therefore emits every
verse with its correct chapter ordinal and table classification. -/
theorem ayahs_table_lookup_correct :
    (∀ (ayas : List XmlAya) (s : Nat), ayahsRowsLoop ayas s = ayahsRowsLoopTrueCoord ayas s) ∧
    (∀ p ∈ sajdahs.map Prod.fst, p.2 ≠ 1) ∧
    (∀ root : XmlRoot, parse_quran_ayahs_table root =
      (ayahsRowsLoopTrueCoord (allAyas root) 0).map
        (fun rs => insert_to_table INSERTABLE_QURAN_AYAHS_TABLE (String.intercalate ",\n" rs))) := by
  have hkeys : ∀ p ∈ sajdahs.map Prod.fst, p.2 ≠ 1 := by decide
  have hnone : ∀ m : Nat, dictGet sajdahs (m, 1) = none := by
    intro m
    refine dictGet_eq_none_of_not_mem sajdahs (m, 1) (fun hmem => ?_)
    exact hkeys (m, 1) hmem rfl
  have hmain : ∀ (ayas : List XmlAya) (s : Nat),
      ayahsRowsLoop ayas s = ayahsRowsLoopTrueCoord ayas s := by
    intro ayas
    induction ayas with
    | nil => intro s; rfl
    | cons aya rest ih =>
      intro s
      unfold ayahsRowsLoop ayahsRowsLoopTrueCoord
      rcases hn : pyIntNat aya.index with _ | n
      · rfl
      · cases hb : (aya.index == "1") with
        | true =>
          have h1 : n = 1 := by
            rw [pyIntNat_one hb] at hn
            injection hn with hn
            omega
          subst h1
          simp only [hb, if_true, hnone, ih]
        | false =>
          simp only [hb, Bool.false_eq_true, if_false, ih]
  exact ⟨hmain, hkeys, fun root => by unfold parse_quran_ayahs_table; rw [hmain]⟩

/-- Witness for C10 on a two-verse chapter boundary and the table key
(32, 15). -/
theorem ayahs_table_lookup_correct_witness :
    ayahsRowsLoop [⟨"1", "t", none⟩, ⟨"2", "u", none⟩] 0 =
      ayahsRowsLoopTrueCoord [⟨"1", "t", none⟩, ⟨"2", "u", none⟩] 0 ∧
    ((32, 15) : Nat × Nat).2 ≠ 1 :=
  ⟨ayahs_table_lookup_correct.1 [⟨"1", "t", none⟩, ⟨"2", "u", none⟩] 0,
   ayahs_table_lookup_correct.2.1 (32, 15) (by decide)⟩

/-! ## The main entry point of quran_parser.py (claim C2) -/

def USAGE_TEXT : String :=
  "./quran_parser [xml_file_path] [database_name] [database_host_url] [database_user] [database_password] [database_port]"

/-- One row of the quran_surahs INSERT (`parse_quran_suarhs_table` body). -/
def surahRow (name : String) (period : Option String) (surah_num : Nat)
    (first_ayah : XmlAya) (mushaf_id : Nat) : String :=
  if first_ayah.text == BISMILLAH then
    "(1, '" ++ name ++ "', '" ++ pyStrOfOption period ++ "', " ++ toString surah_num ++
      ", true, true, " ++ toString mushaf_id ++ ")"
  else
    let status := match first_ayah.bismillah with
      | some _ => "true"
      | none => "false"
    "(1, '" ++ name ++ "', '" ++ pyStrOfOption period ++ "', " ++ toString surah_num ++
      ", '" ++ status ++ "', false, " ++ toString mushaf_id ++ ")"

/-- Embeds the loop of `parse_quran_suarhs_table`; `root[surah_num - 1][0]`
is the current chapter's first verse and raises IndexError (modelled as
`none`) on a chapter with no verses. -/
def surahsRowsLoop : List XmlSura → Nat → Nat → Option (List String)
  | [], _, _ => some []
  | child :: rest, surah_num, mushaf_id =>
    match child.ayas with
    | [] => none
    | first_ayah :: _ =>
      match surahsRowsLoop rest (surah_num + 1) mushaf_id with
      | none => none
      | some rs =>
          some (surahRow child.name (dictGet periods surah_num) surah_num first_ayah mushaf_id :: rs)

/-- Embeds `parse_quran_suarhs_table`. -/
def parse_quran_suarhs_table (root : XmlRoot) (mushaf_id : Nat) : Option String :=
  (surahsRowsLoop root.suras 1 mushaf_id).map
    (fun rs => insert_to_table INSERTABLE_QURAN_SURAH_TABLE (String.intercalate ",\n" rs))

/-- The per-verse word rows of `parse_quran_words_table`. -/
def wordRows (ayah_number : Nat) (aya : XmlAya) : String :=
  String.intercalate ",\n" ((pySplit ' ' (removeSajdahChar aya.text)).map
    (fun word => "(1, " ++ toString ayah_number ++ ", '" ++ word ++ "')"))

def wordsRowsLoop : List XmlAya → Nat → List String
  | [], _ => []
  | aya :: rest, ayah_number => wordRows ayah_number aya :: wordsRowsLoop rest (ayah_number + 1)

/-- Embeds `parse_quran_words_table`. -/
def parse_quran_words_table (root : XmlRoot) : String :=
  insert_to_table INSERTABLE_QURAN_WORDS_TABLE
    (String.intercalate ",\n" (wordsRowsLoop (allAyas root) 1))

/-- The hafs mushaf INSERT issued by `main`. -/
def hafs_sql : String :=
  insert_to_table INSERTABLE_QURAN_MUSHAF_TABLE
    ("(1, 2, 'hafs', 'Hafs an Asem','tanzil', '" ++ BISMILLAH ++ "')")

/-- Observable effects of `main`, in program order. -/
inductive DbEvent where
  | openFile (path : String)
  | printMsg (msg : String)
  | exitProgram (code : Nat)
  | connectDb (database host user password port : String)
  | executeSql (sql : String)
  | commitDb
  | closeDb
  | raiseError (msg : String)
deriving DecidableEq, Repr

/-- Embeds the control flow of `main` in quran_parser.py: check argc, open
and read the file, validate the digest (exiting on mismatch before
anything else), parse the XML (`root?` is the `ET.fromstring` result,
`none` for a parse exception), build the three INSERT statements, and only
then connect, execute, and commit. -/
def mainEvents (args : List String) (fileBytes : List Nat) (root? : Option XmlRoot) :
    List DbEvent :=
  if args.length < 7 then
    [DbEvent.printMsg "Invalid args!\n", DbEvent.printMsg ("Usage: " ++ USAGE_TEXT),
     DbEvent.exitProgram 1]
  else
    DbEvent.openFile (args.getD 1 "") ::
    (if validate_tanzil_quran fileBytes = false then
      [DbEvent.printMsg ("Error: " ++ "Please use the orginal Tanzil Quran Source"),
       DbEvent.exitProgram 1]
    else
      match root? with
      | none => [DbEvent.raiseError "xml.etree.ElementTree.ParseError"]
      | some root =>
        match parse_quran_suarhs_table root 2 with
        | none => [DbEvent.raiseError "IndexError"]
        | some surahs_sql =>
          let words_sql := parse_quran_words_table root
          match parse_quran_ayahs_table root with
          | none => [DbEvent.raiseError "ValueError"]
          | some ayahs_sql =>
            [DbEvent.connectDb (args.getD 2 "") (args.getD 3 "") (args.getD 4 "")
               (args.getD 5 "") (args.getD 6 ""),
             DbEvent.executeSql hafs_sql,
             DbEvent.executeSql (surahs_sql ++ "\n" ++ ayahs_sql ++ "\n" ++ words_sql),
             DbEvent.commitDb, DbEvent.closeDb])

/-- C2: when the digest check fails, the run prints a diagnostic and exits
before any database mutation — the trace contains no connect and no
execute event. -/
theorem integrity_gate_aborts (args : List String) (fileBytes : List Nat)
    (root? : Option XmlRoot)
    (hargs : 7 ≤ args.length)
    (hval : validate_tanzil_quran fileBytes = false) :
    mainEvents args fileBytes root? =
      [DbEvent.openFile (args.getD 1 ""),
       DbEvent.printMsg "Error: Please use the orginal Tanzil Quran Source",
       DbEvent.exitProgram 1] ∧
    ∀ e ∈ mainEvents args fileBytes root?,
      (∀ d h u p po, e ≠ DbEvent.connectDb d h u p po) ∧
      (∀ sql, e ≠ DbEvent.executeSql sql) := by
  have htrace : mainEvents args fileBytes root? =
      [DbEvent.openFile (args.getD 1 ""),
       DbEvent.printMsg "Error: Please use the orginal Tanzil Quran Source",
       DbEvent.exitProgram 1] := by
    unfold mainEvents
    rw [if_neg (by omega), if_pos hval]
    rfl
  refine ⟨htrace, ?_⟩
  intro e he
  rw [htrace] at he
  simp only [List.mem_cons, List.not_mem_nil, or_false] at he
  rcases he with rfl | rfl | rfl
  · exact ⟨fun d h u p po => by simp, fun sql => by simp⟩
  · exact ⟨fun d h u p po => by simp, fun sql => by simp⟩
  · exact ⟨fun d h u p po => by simp, fun sql => by simp⟩

/-- Witness for C2: seven CLI arguments and an empty (hence invalid)
source file. -/
theorem integrity_gate_aborts_witness :
    (7 ≤ (["p", "q", "d", "h", "u", "w", "5432"] : List String).length ∧
      validate_tanzil_quran [] = false) ∧
    mainEvents ["p", "q", "d", "h", "u", "w", "5432"] [] none =
      [DbEvent.openFile "q",
       DbEvent.printMsg "Error: Please use the orginal Tanzil Quran Source",
       DbEvent.exitProgram 1] :=
  ⟨⟨by decide, by decide⟩,
   (integrity_gate_aborts ["p", "q", "d", "h", "u", "w", "5432"] [] none
     (by decide) (by decide)).1⟩

/-! ## JSON serialization (claim C9)

`json.dumps(tree, default=vars, ensure_ascii=False, indent=(pretty and 4)
or None)` serializes each object as a JSON object whose fields appear in
attribute insertion order; pretty and compact mode render the same JSON
value and differ only in added whitespace.  The value is modelled by the
`Json` type below. -/

inductive Json where
  | null
  | bool (b : Bool)
  | num (n : Nat)
  | str (s : String)
  | arr (elems : List Json)
  | obj (fields : List (String × Json))

/-- Python `None` / string attribute values under `json.dumps`. -/
def optStrToJson : Option String → Json
  | none => Json.null
  | some s => Json.str s

def Word.toJson (w : Word) : Json := Json.obj [("text", Json.str w.text)]

def Ayah.toJson (a : Ayah) : Json :=
  Json.obj [("number", Json.num a.number),
            ("sajdah", optStrToJson a.sajdah),
            ("is_bismillah", Json.bool a.is_bismillah),
            ("bismillah_text", optStrToJson a.bismillah_text),
            ("words", Json.arr (a.words.map Word.toJson))]

def Surah.toJson (s : Surah) : Json :=
  Json.obj [("name", Json.str s.name),
            ("period", optStrToJson s.period),
            ("number", Json.num s.number),
            ("ayahs", Json.arr (s.ayahs.map Ayah.toJson))]

def Mushaf.toJson (m : Mushaf) : Json :=
  Json.obj [("name", Json.str m.name),
            ("short_name", Json.str m.short_name),
            ("source", Json.str m.source)]

def Quran.toJson (q : Quran) : Json :=
  Json.obj [("mushaf", Mushaf.toJson q.mushaf),
            ("surahs", Json.arr (q.surahs.map Surah.toJson))]

/-! The translation tree (src/parser/lib/translation.py), in attribute
insertion order. -/

structure AyahTranslation where
  number : Nat
  text : String
deriving DecidableEq, Repr

structure TranslationSurah where
  number : Nat
  name : String
  ayah_translations : List AyahTranslation
deriving DecidableEq, Repr

structure Translation where
  mushaf : String
  language : String
  source : String
  bismillah_text : String
  translator_username : String
  release_date : Option String
  surahs : List TranslationSurah
deriving DecidableEq, Repr

def AyahTranslation.toJson (a : AyahTranslation) : Json :=
  Json.obj [("number", Json.num a.number), ("text", Json.str a.text)]

def TranslationSurah.toJson (s : TranslationSurah) : Json :=
  Json.obj [("number", Json.num s.number),
            ("name", Json.str s.name),
            ("ayah_translations", Json.arr (s.ayah_translations.map AyahTranslation.toJson))]

def Translation.toJson (t : Translation) : Json :=
  Json.obj [("mushaf", Json.str t.mushaf),
            ("language", Json.str t.language),
            ("source", Json.str t.source),
            ("bismillah_text", Json.str t.bismillah_text),
            ("translator_username", Json.str t.translator_username),
            ("release_date", optStrToJson t.release_date),
            ("surahs", Json.arr (t.surahs.map TranslationSurah.toJson))]

/-! Modelled from the spec: JSON re-parsing (the repository serializes with
`json.dumps` but contains no deserializer; "re-parsing the serialized
form" is `json.loads` followed by reading the documented fields back).
Each reader accepts exactly the object layout the spec's data model
describes, with null standing for an absent optional field. -/

/-- Modelled from the spec: re-parsing a serialized word object. -/
def Word.fromJson : Json → Option Word
  | Json.obj [("text", Json.str t)] => some ⟨t⟩
  | _ => none

/-- Modelled from the spec: an optional string field, null when absent. -/
def jsonToOptStr : Json → Option (Option String)
  | Json.null => some none
  | Json.str s => some (some s)
  | _ => none

/-- Modelled from the spec: re-parsing a serialized verse object. -/
def Ayah.fromJson : Json → Option Ayah
  | Json.obj [("number", Json.num n), ("sajdah", sj), ("is_bismillah", Json.bool ib),
              ("bismillah_text", bt), ("words", Json.arr ws)] =>
    match jsonToOptStr sj, jsonToOptStr bt, optionMapList Word.fromJson ws with
    | some sj', some bt', some ws' => some ⟨n, sj', ib, bt', ws'⟩
    | _, _, _ => none
  | _ => none

/-- Modelled from the spec: re-parsing a serialized chapter object. -/
def Surah.fromJson : Json → Option Surah
  | Json.obj [("name", Json.str nm), ("period", pd), ("number", Json.num n),
              ("ayahs", Json.arr ays)] =>
    match jsonToOptStr pd, optionMapList Ayah.fromJson ays with
    | some pd', some ays' => some ⟨nm, pd', n, ays'⟩
    | _, _ => none
  | _ => none

/-- Modelled from the spec: re-parsing a serialized mushaf object. -/
def Mushaf.fromJson : Json → Option Mushaf
  | Json.obj [("name", Json.str nm), ("short_name", Json.str sn),
              ("source", Json.str src)] => some ⟨nm, sn, src⟩
  | _ => none

/-- Modelled from the spec: re-parsing a serialized Quran document. -/
def Quran.fromJson : Json → Option Quran
  | Json.obj [("mushaf", mj), ("surahs", Json.arr ss)] =>
    match Mushaf.fromJson mj, optionMapList Surah.fromJson ss with
    | some m, some ss' => some ⟨m, ss'⟩
    | _, _ => none
  | _ => none

/-- Modelled from the spec: re-parsing a serialized verse translation. -/
def AyahTranslation.fromJson : Json → Option AyahTranslation
  | Json.obj [("number", Json.num n), ("text", Json.str t)] => some ⟨n, t⟩
  | _ => none

/-- Modelled from the spec: re-parsing a serialized translation chapter. -/
def TranslationSurah.fromJson : Json → Option TranslationSurah
  | Json.obj [("number", Json.num n), ("name", Json.str nm),
              ("ayah_translations", Json.arr ats)] =>
    match optionMapList AyahTranslation.fromJson ats with
    | some ats' => some ⟨n, nm, ats'⟩
    | none => none
  | _ => none

/-- Modelled from the spec: re-parsing a serialized translation document. -/
def Translation.fromJson : Json → Option Translation
  | Json.obj [("mushaf", Json.str mu), ("language", Json.str lg),
              ("source", Json.str src), ("bismillah_text", Json.str bt),
              ("translator_username", Json.str tu), ("release_date", rd),
              ("surahs", Json.arr ss)] =>
    match jsonToOptStr rd, optionMapList TranslationSurah.fromJson ss with
    | some rd', some ss' => some ⟨mu, lg, src, bt, tu, rd', ss'⟩
    | _, _ => none
  | _ => none

theorem jsonToOptStr_optStrToJson : ∀ o : Option String, jsonToOptStr (optStrToJson o) = some o := by
  intro o
  cases o <;> rfl

theorem optionMapList_map_roundtrip {α β : Type} (f : β → Option α) (g : α → β)
    (h : ∀ a, f (g a) = some a) :
    ∀ l : List α, optionMapList f (l.map g) = some l := by
  intro l
  induction l with
  | nil => rfl
  | cons a tl ih =>
    show optionMapList f (g a :: tl.map g) = some (a :: tl)
    unfold optionMapList
    rw [h a, ih]

theorem word_json_roundtrip : ∀ w : Word, Word.fromJson w.toJson = some w := fun _ => rfl

theorem ayah_json_roundtrip : ∀ a : Ayah, Ayah.fromJson a.toJson = some a := by
  intro a
  simp only [Ayah.toJson, Ayah.fromJson]
  rw [jsonToOptStr_optStrToJson, jsonToOptStr_optStrToJson,
      optionMapList_map_roundtrip Word.fromJson Word.toJson word_json_roundtrip]

theorem surah_json_roundtrip : ∀ s : Surah, Surah.fromJson s.toJson = some s := by
  intro s
  simp only [Surah.toJson, Surah.fromJson]
  rw [jsonToOptStr_optStrToJson,
      optionMapList_map_roundtrip Ayah.fromJson Ayah.toJson ayah_json_roundtrip]

theorem mushaf_json_roundtrip : ∀ m : Mushaf, Mushaf.fromJson m.toJson = some m := fun _ => rfl

theorem quran_json_roundtrip : ∀ q : Quran, Quran.fromJson q.toJson = some q := by
  intro q
  simp only [Quran.toJson, Quran.fromJson]
  rw [mushaf_json_roundtrip,
      optionMapList_map_roundtrip Surah.fromJson Surah.toJson surah_json_roundtrip]

theorem ayahTranslation_json_roundtrip :
    ∀ a : AyahTranslation, AyahTranslation.fromJson a.toJson = some a := fun _ => rfl

theorem translationSurah_json_roundtrip :
    ∀ s : TranslationSurah, TranslationSurah.fromJson s.toJson = some s := by
  intro s
  simp only [TranslationSurah.toJson, TranslationSurah.fromJson]
  rw [optionMapList_map_roundtrip AyahTranslation.fromJson AyahTranslation.toJson
      ayahTranslation_json_roundtrip]

theorem translation_json_roundtrip :
    ∀ t : Translation, Translation.fromJson t.toJson = some t := by
  intro t
  simp only [Translation.toJson, Translation.fromJson]
  rw [jsonToOptStr_optStrToJson,
      optionMapList_map_roundtrip TranslationSurah.fromJson TranslationSurah.toJson
        translationSurah_json_roundtrip]

/-- The key list of a serialized object. -/
def Json.keys : Json → List String
  | Json.obj fields => fields.map Prod.fst
  | _ => []

/-- The chapter field order as the spec's data model (section 3) enumerates
it: name, number, period, ayahs. -/
def specSurahFieldOrder : List String := ["name", "number", "period", "ayahs"]

/-- C9 counterexample: the serializer emits chapter fields in attribute
construction order (name, period, number, ayahs), which differs from the
field order enumerated in the data model (name, number, period, ayahs), so
the claim's field-order conjunct fails at any concrete chapter. -/
theorem serialized_field_order_differs :
    Json.keys (Surah.toJson ⟨"x", some "makki", 1, []⟩) =
      ["name", "period", "number", "ayahs"] ∧
    Json.keys (Surah.toJson ⟨"x", some "makki", 1, []⟩) ≠ specSurahFieldOrder :=
  ⟨rfl, by decide⟩

/-- C9 amended: serializing a parsed Mushaf or Translation tree to its
JSON value (the same value in pretty and compact mode, which differ only
in whitespace) and re-parsing it yields an equal tree — same chapter,
verse and word counts, texts and flags — with fields in attribute
construction order and absent optional fields as an explicit null. -/
theorem json_round_trip :
    (∀ q : Quran, Quran.fromJson q.toJson = some q) ∧
    (∀ t : Translation, Translation.fromJson t.toJson = some t) :=
  ⟨quran_json_roundtrip, translation_json_roundtrip⟩

end Nq
